import Mathlib

/-!
# Verification of the `gravity` N-body integrator core

Shallow embedding of the simulation core of `src/main.py` (`to_cartesian`,
`to_polar`, `PlanetObject`, `GravSystem`) and proofs about the frozen claims.

Modelling conventions:
* Python floats are modelled by exact real numbers `ℝ`; `math.hypot`,
  `math.sqrt` and the trigonometric functions become their Mathlib
  counterparts.  `OverflowError` has no counterpart over exact reals, so the
  `except OverflowError` branch of `PlanetObject.update` is unreachable in the
  model; all other control flow is translated branch for branch.
* Python raises `ZeroDivisionError` from `a / r ** 3` exactly when `r = 0`
  (over exact reals), and from the `/ new_m` divisions in `collide` exactly
  when `new_m = 0`; the model tests these conditions explicitly.
  `list.remove(x)` raises `ValueError` when `x` is absent; `pyRemove` models
  this.  Uncaught exceptions are propagated with the mutated state via `PyRes`.
* Python objects are mutable and aliased; the model uses an explicit store
  (`SysState.store`, all bodies ever constructed in creation order) and the
  three partition lists `all` / `collided` / `runaway` hold store indices.
  `x is not y` becomes inequality of store indices.
* `for p in self.all:` iterates with an internal index over the live,
  concurrently mutated list (CPython list-iterator semantics).  The loops are
  modelled index by index with a fuel argument equal to the length of the
  list when the loop starts; since every mutation performed during a pass
  (`collide` removes two and appends one, escape removes one) never increases
  the length of `all`, this fuel is exactly enough, and the model agrees with
  the Python iterator.
* GUI-only state (the `info` label, `Logger` calls, the `polar` display flag
  read from the app config) is omitted: the core never reads it in any
  computation.  The string id is kept as a list of tokens, `+`-joining of the
  two parent id strings becoming list concatenation.
-/

noncomputable section

namespace Gravity

open Real

/-- Python `math.hypot`. -/
def hypot (x y : ℝ) : ℝ := Real.sqrt (x ^ 2 + y ^ 2)

/-- Python `math.radians`. -/
def radians (a : ℝ) : ℝ := a * (Real.pi / 180)

/-- Python `math.degrees`. -/
def degrees (a : ℝ) : ℝ := a * (180 / Real.pi)

/-- Function `to_cartesian(m, a, rad)` from `src/main.py`. -/
def to_cartesian (m a : ℝ) (rad : Bool) : ℝ × ℝ :=
  if rad then (m * Real.cos a, m * Real.sin a)
  else (m * Real.cos (radians a), m * Real.sin (radians a))

/-- Function `to_polar(x, y, rad)` from `src/main.py`: magnitude by `hypot`, angle by
`atan(y/x)` in degrees (`90` when `x == 0`), then the sequential
`if`/`elif` quadrant corrections, then optional conversion to radians. -/
def to_polar (x y : ℝ) (rad : Bool) : ℝ × ℝ :=
  let m := hypot x y
  let a0 : ℝ := if x ≠ 0 then degrees (Real.arctan (y / x)) else 90
  let a1 : ℝ :=
    if x < 0 then a0 + 180
    else if x = 0 ∧ y < 0 then 270
    else if x > 0 ∧ y < 0 then a0 + 360
    else a0
  (m, if rad then a1 * (Real.pi / 180) else a1)

/-- One point mass (`PlanetObject`).  Fields mirror the attributes set in
`PlanetObject.__init__`; the GUI-only `info` label and `polar` display flag
are omitted. -/
structure Body where
  mass : ℝ
  x : ℝ
  y : ℝ
  vx : ℝ
  vy : ℝ
  ax : ℝ
  ay : ℝ
  colour : ℝ × ℝ × ℝ × ℝ
  radius : ℝ
  trail : ℤ
  positions : List (ℝ × ℝ)
  has_collided : Bool
  idx : List ℕ

instance : Inhabited Body :=
  ⟨{ mass := 0, x := 0, y := 0, vx := 0, vy := 0, ax := 0, ay := 0,
     colour := (0, 0, 0, 0), radius := 0, trail := 0,
     positions := [(0, 0), (0, 0)], has_collided := false, idx := [] }⟩

/-- The whole system (`GravSystem`) together with the store of all
`PlanetObject` instances ever constructed in it.  The lists `all`,
`collided`, `runaway` hold store indices. -/
structure SysState where
  G : ℝ
  dt : ℝ
  bound : ℝ
  freq : ℝ
  random : Bool
  autoradius : Bool
  r_const : ℝ
  collisions : Bool
  rf : ℝ
  vf : ℝ
  tpdist : ℝ
  store : List Body
  all : List ℕ
  collided : List ℕ
  runaway : List ℕ
  totalpts : ℤ
  calc_num : ℕ
  simtime : ℝ

/-- Python exception kinds that can propagate out of the core uncaught. -/
inductive PyExc where
  | valueError : PyExc
  | zeroDivisionError : PyExc
deriving DecidableEq

/-- Result of running a piece of Python code: either a value, or an uncaught
exception together with the state at the moment it was raised (mutations made
before the raise are kept, as in Python). -/
inductive PyRes (α : Type) where
  | ok : α → PyRes α
  | exn : PyExc → SysState → PyRes α

/-- Read a body from the store (object dereference). -/
def getBody (s : SysState) (i : ℕ) : Body := s.store.getD i default

/-- Write a body back to the store (in-place attribute mutation). -/
def setBody (s : SysState) (i : ℕ) (b : Body) : SysState :=
  { s with store := s.store.set i b }

/-- Python `list.remove(x)`: drop the first occurrence, `ValueError` (modelled as
`none`) when absent. -/
def pyRemove (l : List ℕ) (x : ℕ) : Option (List ℕ) :=
  if x ∈ l then some (l.erase x) else none

/-- Constructor `GravSystem.__init__`: parameters in declaration order; `bound` and
`f_calc` are stored as absolute values, the partitions start empty and the
counters at zero. -/
def mkSystem (const_G const_dt bound f_calc : ℝ) (random autoradius : Bool)
    (r_const : ℝ) (collision : Bool) (rf vf tpdist : ℝ) : SysState :=
  { G := const_G, dt := const_dt, bound := |bound|, freq := |f_calc|,
    random := random, autoradius := autoradius, r_const := r_const,
    collisions := collision, rf := rf, vf := vf, tpdist := tpdist,
    store := [], all := [], collided := [], runaway := [],
    totalpts := 0, calc_num := 0, simtime := 0 }

/-- Constructor `PlanetObject.__init__` followed by `GravSystem._add_obj`: the mass is
stored as `math.fabs(m)`, the trail starts as two copies of the initial
position, and the new body is appended to `store` (it gets the next free
store index as identity) and its index appended to `all`. -/
def mkPlanet (s : SysState) (m x y vx vy : ℝ) (color : ℝ × ℝ × ℝ × ℝ)
    (radius : ℝ) (trail : ℤ) (idx : List ℕ) : SysState :=
  let b : Body :=
    { mass := |m|, x := x, y := y, vx := vx, vy := vy, ax := 0, ay := 0,
      colour := color, radius := radius, trail := trail,
      positions := [(x, y), (x, y)], has_collided := false, idx := idx }
  { s with store := s.store ++ [b], all := s.all ++ [s.store.length] }

/-- Method `PlanetObject.collide(self, other)` (src/main.py lines 198-246).
The merged quantities are computed first (`ZeroDivisionError` when
`new_m = 0`), then both flags are set, both bodies are removed from `all`
and appended to `collided`, and the new body is constructed into the same
system.  Mathlib's `round` rounds half away from zero where Python rounds
half to even; no claim depends on radii at exact half-integers. -/
def collide (s : SysState) (selfId otherId : ℕ) : PyRes SysState :=
  let b := getBody s selfId
  let o := getBody s otherId
  let new_m := b.mass + o.mass
  if new_m = 0 then .exn .zeroDivisionError s else
  let new_x := (b.mass * b.x + o.mass * o.x) / new_m
  let new_y := (b.mass * b.y + o.mass * o.y) / new_m
  let new_vx := s.vf * (b.mass * b.vx + o.mass * o.vx) / new_m
  let new_vy := s.vf * (b.mass * b.vy + o.mass * o.vy) / new_m
  let c : ℝ × ℝ × ℝ × ℝ :=
    ((b.mass * b.colour.1 + o.mass * o.colour.1) / new_m,
     (b.mass * b.colour.2.1 + o.mass * o.colour.2.1) / new_m,
     (b.mass * b.colour.2.2.1 + o.mass * o.colour.2.2.1) / new_m,
     (b.mass * b.colour.2.2.2 + o.mass * o.colour.2.2.2) / new_m)
  let new_r : ℝ :=
    if s.autoradius = true then ((max 1 (round (Real.sqrt new_m / s.r_const)) : ℤ) : ℝ)
    else max b.radius o.radius
  let tr := max b.trail o.trail
  let s1 := setBody s selfId { b with has_collided := true }
  let s2 := setBody s1 otherId { getBody s1 otherId with has_collided := true }
  let nid := b.idx ++ o.idx
  match pyRemove s2.all selfId with
  | none => .exn .valueError s2
  | some l1 =>
    match pyRemove l1 otherId with
    | none => .exn .valueError { s2 with all := l1 }
    | some l2 =>
      .ok (mkPlanet
        { s2 with all := l2, collided := s2.collided ++ [selfId] ++ [otherId] }
        new_m new_x new_y new_vx new_vy c new_r tr nid)

/-- Method `PlanetObject.force(self, other)` (src/main.py lines 124-149).
Collision test first; otherwise the Newtonian components, with the
`ZeroDivisionError` handler (`r = 0`) nudging `self.vx` and `other.vy`
by one when the two velocities coincide and contributing a zero force. -/
def force (s : SysState) (selfId otherId : ℕ) : PyRes (SysState × ℝ × ℝ) :=
  let b := getBody s selfId
  let o := getBody s otherId
  let r := hypot (b.x - o.x) (b.y - o.y)
  if s.collisions = true ∧ r ≤ s.rf * (b.radius + o.radius) ∧
      b.has_collided = false ∧ o.has_collided = false then
    match collide s selfId otherId with
    | .ok s' => .ok (s', 0, 0)
    | .exn e st => .exn e st
  else if r = 0 then
    .ok
      (if b.vx - o.vx = 0 ∧ b.vy - o.vy = 0 then
        let s1 := setBody s selfId { b with vx := b.vx + 1 }
        setBody s1 otherId { getBody s1 otherId with vy := (getBody s1 otherId).vy + 1 }
      else s, 0, 0)
  else
    .ok (s,
      (if o.x > b.x then (1 : ℝ) else -1) * s.G * o.mass * |b.x - o.x| / r ^ 3,
      (if o.y > b.y then (1 : ℝ) else -1) * s.G * o.mass * |b.y - o.y| / r ^ 3)

/-- The force-summation loop of `PlanetObject.update`:
`for body in self.system.all: if body is not self: ...` iterated by index
over the live list; `fuel` is the length of `all` at loop entry. -/
def forceLoop : ℕ → ℕ → SysState → ℕ → ℝ → ℝ → PyRes (SysState × ℝ × ℝ)
  | 0, _, s, _, net_ax, net_ay => .ok (s, net_ax, net_ay)
  | fuel + 1, i, s, selfId, net_ax, net_ay =>
    if i < s.all.length then
      let bodyId := s.all.getD i 0
      if bodyId = selfId then forceLoop fuel (i + 1) s selfId net_ax net_ay
      else
        match force s selfId bodyId with
        | .ok (s', fx, fy) => forceLoop fuel (i + 1) s' selfId (net_ax + fx) (net_ay + fy)
        | .exn e st => .exn e st
    else .ok (s, net_ax, net_ay)

/-- The leapfrog velocity kick of `PlanetObject.update`: half `dt` on the
bootstrap pass (`calc_num == 0`), full `dt` afterwards. -/
def applyKick (b : Body) (calc_num : ℕ) (dt : ℝ) : Body :=
  if calc_num = 0 then
    { b with vx := b.vx + dt / 2 * b.ax, vy := b.vy + dt / 2 * b.ay }
  else
    { b with vx := b.vx + dt * b.ax, vy := b.vy + dt * b.ay }

/-- The trail bookkeeping block of `PlanetObject.update`: skipped when
`trail == 0`; append the current position when it is at least `tpdist` away
from the last recorded point; then evict the oldest point when
`trail >= 0` and the length exceeds the cap.  (`positions[-1]` is modelled
with a default: the list always has at least one element, see the trail
invariants below.) -/
def trailStep (s : SysState) (b : Body) : SysState × Body :=
  if b.trail ≠ 0 then
    let last := b.positions.getLastD (0, 0)
    let sb1 :=
      if hypot (b.x - last.1) (b.y - last.2) ≥ s.tpdist then
        ({ s with totalpts := s.totalpts + 1 },
         { b with positions := b.positions ++ [(b.x, b.y)] })
      else (s, b)
    if 0 ≤ sb1.2.trail ∧ sb1.2.trail < (sb1.2.positions.length : ℤ) then
      ({ sb1.1 with totalpts := sb1.1.totalpts - 1 },
       { sb1.2 with positions := sb1.2.positions.tail })
    else sb1
  else (s, b)

/-- Method `PlanetObject.update(self, dt)` (src/main.py lines 151-196): sum the
pairwise forces over the live `all` list, store the net acceleration, apply
the velocity kick, do the trail bookkeeping, integrate the position, then
the boundary check, which moves the body from `all` to `runaway`.
`list.remove` in the boundary branch raises `ValueError` (uncaught: only
`OverflowError` is handled there, and exact reals cannot overflow) when the
body is no longer in `all`. -/
def update (s : SysState) (selfId : ℕ) (dt : ℝ) : PyRes SysState :=
  match forceLoop s.all.length 0 s selfId 0 0 with
  | .exn e st => .exn e st
  | .ok (s1, net_ax, net_ay) =>
    let b := getBody s1 selfId
    let b1 := applyKick { b with ax := net_ax, ay := net_ay } s1.calc_num dt
    let sb := trailStep s1 b1
    let b3 := { sb.2 with x := sb.2.x + dt * sb.2.vx, y := sb.2.y + dt * sb.2.vy }
    let s3 := setBody sb.1 selfId b3
    if |b3.x| > s3.bound ∨ |b3.y| > s3.bound then
      match pyRemove s3.all selfId with
      | some l => .ok { s3 with all := l, runaway := s3.runaway ++ [selfId] }
      | none => .exn .valueError s3
    else .ok s3

/-- The body loop of `GravSystem.update`: `for p in self.all: p.update(delta)`
iterated by index over the live list; `fuel` is the length of `all` at loop
entry. -/
def stepLoop : ℕ → ℕ → SysState → ℝ → PyRes SysState
  | 0, _, s, _ => .ok s
  | fuel + 1, i, s, delta =>
    if i < s.all.length then
      match update s (s.all.getD i 0) delta with
      | .ok s' => stepLoop fuel (i + 1) s' delta
      | .exn e st => .exn e st
    else .ok s

/-- Method `GravSystem.update(self, delta)` (src/main.py lines 307-313): update all
active bodies, then increment the completed-step counter and the simulated
time (skipped when an exception propagates out of the loop). -/
def sysUpdate (s : SysState) (delta : ℝ) : PyRes SysState :=
  match stepLoop s.all.length 0 s delta with
  | .ok s' => .ok { s' with calc_num := s'.calc_num + 1, simtime := s'.simtime + delta }
  | .exn e st => .exn e st

/-- Iterated driver steps (`GravSystem.update` called `n` times in a row by
the external scheduler). -/
def steps : ℕ → SysState → ℝ → PyRes SysState
  | 0, s, _ => .ok s
  | n + 1, s, delta =>
    match sysUpdate s delta with
    | .ok s' => steps n s' delta
    | .exn e st => .exn e st

/-- Whether a run raised an uncaught exception. -/
def isExn : PyRes SysState → Bool
  | .ok _ => false
  | .exn _ _ => true

/-- The state carried by a run result (at raise time for exceptions). -/
def resState : PyRes SysState → SysState
  | .ok s => s
  | .exn _ s => s

/-- The state carried by a `force` result. -/
def forceState : PyRes (SysState × ℝ × ℝ) → SysState
  | .ok (s, _, _) => s
  | .exn _ s => s

/-- The partition invariant of a `GravSystem`: every listed index denotes a
body actually constructed in this system, no list repeats an index, the
three partitions are pairwise disjoint, and together they cover every body
ever constructed. -/
structure Inv (s : SysState) : Prop where
  all_lt : ∀ i ∈ s.all, i < s.store.length
  col_lt : ∀ i ∈ s.collided, i < s.store.length
  run_lt : ∀ i ∈ s.runaway, i < s.store.length
  all_nd : s.all.Nodup
  col_nd : s.collided.Nodup
  run_nd : s.runaway.Nodup
  all_col : ∀ i ∈ s.all, i ∉ s.collided
  all_run : ∀ i ∈ s.all, i ∉ s.runaway
  col_run : ∀ i ∈ s.collided, i ∉ s.runaway
  cover : ∀ i, i < s.store.length → i ∈ s.all ∨ i ∈ s.collided ∨ i ∈ s.runaway

/-- States reachable through the core's public interface: construct a system,
add bodies, and run completed (exception-free) simulation steps. -/
inductive Reachable : SysState → Prop where
  | base : ∀ cG cdt bound f_calc random autoradius r_const collision rf vf tpdist,
      Reachable (mkSystem cG cdt bound f_calc random autoradius r_const collision rf vf tpdist)
  | planet : ∀ {s} m x y vx vy color radius trail idx, Reachable s →
      Reachable (mkPlanet s m x y vx vy color radius trail idx)
  | step : ∀ {s s'} delta, Reachable s → sysUpdate s delta = .ok s' → Reachable s'

/-- Every body ever created is in exactly one of the three partitions. -/
def ExactlyOnePartition (s : SysState) : Prop :=
  ∀ i, i < s.store.length →
    (i ∈ s.all ∧ i ∉ s.collided ∧ i ∉ s.runaway) ∨
    (i ∉ s.all ∧ i ∈ s.collided ∧ i ∉ s.runaway) ∨
    (i ∉ s.all ∧ i ∉ s.collided ∧ i ∈ s.runaway)

/-- Per-body trail facts: the recorded positions list is never empty, and a
cap of at least two is respected. -/
def BodyOk (b : Body) : Prop :=
  1 ≤ b.positions.length ∧ (2 ≤ b.trail → (b.positions.length : ℤ) ≤ b.trail)

/-- Per-body trail-length invariant over the whole store. -/
def TrailInv (s : SysState) : Prop :=
  ∀ i, BodyOk (getBody s i)

/-! ### Concrete scenarios

Initial states used to evaluate the model on explicit inputs.  Parameters of
`mkSystem` in order: `G`, `dt`, `bound`, `f_calc`, `random`, `autoradius`,
`r_const`, `collision`, `rf`, `vf`, `tpdist`. -/

/-- Two bodies, masses `2` and `1`, for a direct merge (`vf = 1/2`). -/
def c1S : SysState :=
  mkPlanet (mkPlanet (mkSystem 1 1 10000 50 false false 3 true 1 (1/2) 1)
    2 0 0 3 0 (1, 1, 1, 1) 5 100 [0])
    1 6 0 0 0 (1, 1, 1, 1) 5 100 [1]

/-- Three bodies on the x-axis with `G = 0`, `dt = 1`: bodies `0` and `1`
are one unit apart with unit radii and `rf = 1`, so they merge during the
update of body `0`; body `2` sits far away at `x = 100`.  The merged body
gets store index `3`, is created at `x = 1/2` with velocity `1`, and is
reached by the live list iterator within the same step. -/
def c2S : SysState :=
  mkPlanet (mkPlanet (mkPlanet (mkSystem 0 1 1000000 50 false false 3 true 1 1 1)
    1 0 0 0 0 (1, 1, 1, 1) 1 100 [0])
    1 1 0 2 0 (1, 1, 1, 1) 1 100 [1])
    1 100 0 0 0 (1, 1, 1, 1) 1 100 [2]

/-- A single body created for the leapfrog-kick witness (`G = 1`, alone in
the system, so the net force is zero). -/
def c3S : SysState :=
  mkPlanet (mkSystem 1 1 10000 50 false false 3 true 1 1 1)
    1 0 0 3 0 (1, 1, 1, 1) 5 100 [0]

/-- Two bodies that merge during the update of body `0` while body `0` is
moving fast (`vx = 20`) toward the boundary (`bound = 10`, `dt = 1`): after
the merge removes body `0` from `all`, its own still-running update crosses
the boundary and `list.remove` raises `ValueError`. -/
def c4S : SysState :=
  mkPlanet (mkPlanet (mkSystem 0 1 10 50 false false 3 true 1 1 1)
    1 0 0 20 0 (1, 1, 1, 1) 1 100 [0])
    1 1 0 0 0 (1, 1, 1, 1) 1 100 [1]

/-- A single stationary body with trail cap `1` and `tpdist = 0` (record a
point every pass): each update appends one point then evicts one, so the
trail length stays `2`, above the cap. -/
def c5S : SysState :=
  mkPlanet (mkSystem 0 1 1000000 50 false false 3 true 1 1 0)
    1 0 0 0 0 (1, 1, 1, 1) 1 1 [0]

/-- A body with trail cap `100` for the amended trail-cap witness. -/
def c5W : SysState :=
  mkPlanet (mkSystem 1 1 10000 50 false false 3 true 1 1 1)
    1 0 0 0 0 (1, 1, 1, 1) 5 100 [0]

/-- Two bodies with identical position and identical velocity in a system
with collisions disabled: `force` takes the overlap (`ZeroDivisionError`)
path and nudges the velocities of both bodies. -/
def c6S : SysState :=
  mkPlanet (mkPlanet (mkSystem 1 1 10000 50 false false 3 false 1 1 1)
    1 0 0 0 0 (1, 1, 1, 1) 5 100 [0])
    1 0 0 0 0 (1, 1, 1, 1) 5 100 [1]

/-- A single body placed at `x = 150` with `bound = 100`: its first update
moves it to `runaway`. -/
def c7S : SysState :=
  mkPlanet (mkSystem 1 1 100 50 false false 3 true 1 1 1)
    1 150 0 0 0 (1, 1, 1, 1) 5 100 [0]

/-- The state of `c7S` after its first step (body `0` escaped). -/
def c7S1 : SysState := resState (sysUpdate c7S 1)

/-- A freshly built one-body system for the partition witness. -/
def c8S : SysState :=
  mkPlanet (mkSystem 1 1 10000 50 false false 3 true 1 1 1)
    1 0 0 0 0 (1, 1, 1, 1) 5 100 [0]

/-- A single stationary body with trail cap `1` and `tpdist = 1`: its first
update appends nothing (it has not moved yet) but still evicts one point,
dropping the trail to a single entry. -/
def c10S : SysState :=
  mkPlanet (mkSystem 0 1 1000000 50 false false 3 true 1 1 1)
    1 0 0 0 0 (1, 1, 1, 1) 1 1 [0]

/-- A body with trail cap `100` for the amended minimum-trail witness. -/
def c10W : SysState :=
  mkPlanet (mkSystem 1 1 10000 50 false false 3 true 1 1 1)
    1 2 0 0 0 (1, 1, 1, 1) 5 100 [0]

/-! ### Helper lemmas -/

theorem hypot_y_zero (a : ℝ) : hypot a 0 = |a| := by
  simp [hypot, Real.sqrt_sq_eq_abs]

theorem hypot_zero_zero : hypot 0 0 = 0 := by
  simp [hypot]

theorem radians_degrees (t : ℝ) : radians (degrees t) = t := by
  unfold radians degrees
  field_simp

theorem hypot_ne_zero_of_ne {x : ℝ} (y : ℝ) (hx : x ≠ 0) : hypot x y ≠ 0 := by
  unfold hypot
  positivity

theorem sqrt_one_add_sq_div {x : ℝ} (y : ℝ) (hx : x ≠ 0) :
    Real.sqrt (1 + (y / x) ^ 2) = hypot x y / |x| := by
  unfold hypot
  rw [show 1 + (y / x) ^ 2 = (x ^ 2 + y ^ 2) / x ^ 2 by field_simp]
  rw [Real.sqrt_div (by positivity), Real.sqrt_sq_eq_abs]

theorem cos_arctan_scaled {x : ℝ} (y : ℝ) (hx : x ≠ 0) :
    hypot x y * Real.cos (Real.arctan (y / x)) = |x| := by
  have hm := hypot_ne_zero_of_ne y hx
  have hax : |x| ≠ 0 := abs_ne_zero.mpr hx
  rw [Real.cos_arctan, sqrt_one_add_sq_div y hx]
  field_simp

theorem sin_arctan_scaled {x : ℝ} (y : ℝ) (hx : x ≠ 0) :
    hypot x y * Real.sin (Real.arctan (y / x)) = y / x * |x| := by
  have hm := hypot_ne_zero_of_ne y hx
  have hax : |x| ≠ 0 := abs_ne_zero.mpr hx
  rw [Real.sin_arctan, sqrt_one_add_sq_div y hx]
  field_simp
  ring

theorem radians_degrees_add_pi (t : ℝ) :
    radians (degrees t + 180) = t + Real.pi := by
  unfold radians degrees
  have := Real.pi_ne_zero
  field_simp
  ring

theorem radians_degrees_add_two_pi (t : ℝ) :
    radians (degrees t + 360) = t + 2 * Real.pi := by
  unfold radians degrees
  have := Real.pi_ne_zero
  field_simp
  ring

@[simp] theorem setBody_all (s : SysState) (i : ℕ) (b : Body) :
    (setBody s i b).all = s.all := rfl

@[simp] theorem setBody_collided (s : SysState) (i : ℕ) (b : Body) :
    (setBody s i b).collided = s.collided := rfl

@[simp] theorem setBody_runaway (s : SysState) (i : ℕ) (b : Body) :
    (setBody s i b).runaway = s.runaway := rfl

@[simp] theorem setBody_calc_num (s : SysState) (i : ℕ) (b : Body) :
    (setBody s i b).calc_num = s.calc_num := rfl

@[simp] theorem setBody_store_length (s : SysState) (i : ℕ) (b : Body) :
    (setBody s i b).store.length = s.store.length := by
  simp [setBody]

theorem getBody_setBody_self (s : SysState) (i : ℕ) (b : Body) (h : i < s.store.length) :
    getBody (setBody s i b) i = b := by
  simp [getBody, setBody, List.getD, List.getElem?_set_self, h]

theorem getBody_setBody_ne (s : SysState) (i j : ℕ) (b : Body) (h : j ≠ i) :
    getBody (setBody s j b) i = getBody s i := by
  simp [getBody, setBody, List.getD, List.getElem?_set_ne h]

theorem getBody_mkPlanet_old (s : SysState) (m x y vx vy : ℝ) (c : ℝ × ℝ × ℝ × ℝ)
    (radius : ℝ) (trail : ℤ) (idx : List ℕ) (i : ℕ) (h : i < s.store.length) :
    getBody (mkPlanet s m x y vx vy c radius trail idx) i = getBody s i := by
  simp only [getBody, mkPlanet]
  rw [List.getD_append _ _ _ _ h]

theorem getBody_mkPlanet_new (s : SysState) (m x y vx vy : ℝ) (c : ℝ × ℝ × ℝ × ℝ)
    (radius : ℝ) (trail : ℤ) (idx : List ℕ) :
    getBody (mkPlanet s m x y vx vy c radius trail idx) s.store.length =
      { mass := |m|, x := x, y := y, vx := vx, vy := vy, ax := 0, ay := 0,
        colour := c, radius := radius, trail := trail,
        positions := [(x, y), (x, y)], has_collided := false, idx := idx } := by
  simp [getBody, mkPlanet, List.getD, List.getElem?_concat_length]

theorem getBody_mkPlanet_at (s : SysState) (m x y vx vy : ℝ) (c : ℝ × ℝ × ℝ × ℝ)
    (radius : ℝ) (trail : ℤ) (idx : List ℕ) (i : ℕ) (hi : i = s.store.length) :
    getBody (mkPlanet s m x y vx vy c radius trail idx) i =
      { mass := |m|, x := x, y := y, vx := vx, vy := vy, ax := 0, ay := 0,
        colour := c, radius := radius, trail := trail,
        positions := [(x, y), (x, y)], has_collided := false, idx := idx } := by
  subst hi
  exact getBody_mkPlanet_new s m x y vx vy c radius trail idx

theorem getBody_listfields (s : SysState) (al co : List ℕ) (i : ℕ) :
    getBody { s with all := al, collided := co } i = getBody s i := rfl

theorem getBody_two_sets_other (s : SysState) (a b i : ℕ) (ba bb : Body)
    (hai : a ≠ i) (hbi : b ≠ i) :
    getBody (setBody (setBody s a ba) b bb) i = getBody s i := by
  rw [getBody_setBody_ne _ _ _ _ hbi, getBody_setBody_ne _ _ _ _ hai]

/-- Anatomy of a merge that completes normally: the combined mass is nonzero
and the new body (at the next free store index) carries exactly the computed
merged attributes. -/
theorem collide_ok_newbody (s : SysState) (a b : ℕ) (s' : SysState)
    (h : collide s a b = .ok s') :
    (getBody s a).mass + (getBody s b).mass ≠ 0 ∧
    (getBody s' s.store.length).mass = |(getBody s a).mass + (getBody s b).mass| ∧
    (getBody s' s.store.length).x =
      ((getBody s a).mass * (getBody s a).x + (getBody s b).mass * (getBody s b).x) /
        ((getBody s a).mass + (getBody s b).mass) ∧
    (getBody s' s.store.length).y =
      ((getBody s a).mass * (getBody s a).y + (getBody s b).mass * (getBody s b).y) /
        ((getBody s a).mass + (getBody s b).mass) ∧
    (getBody s' s.store.length).vx =
      s.vf * ((getBody s a).mass * (getBody s a).vx + (getBody s b).mass * (getBody s b).vx) /
        ((getBody s a).mass + (getBody s b).mass) ∧
    (getBody s' s.store.length).vy =
      s.vf * ((getBody s a).mass * (getBody s a).vy + (getBody s b).mass * (getBody s b).vy) /
        ((getBody s a).mass + (getBody s b).mass) := by
  simp only [collide, setBody_all] at h
  by_cases hm : (getBody s a).mass + (getBody s b).mass = 0
  · rw [if_pos hm] at h
    exact PyRes.noConfusion h
  · rw [if_neg hm] at h
    refine ⟨hm, ?_⟩
    split at h
    · exact PyRes.noConfusion h
    · split at h
      · exact PyRes.noConfusion h
      · injection h with h
        subst h
        rw [getBody_mkPlanet_at _ _ _ _ _ _ _ _ _ _ _ (by simp [setBody])]
        exact ⟨rfl, rfl, rfl, rfl, rfl⟩

theorem pyRemove_eq_some {l l' : List ℕ} {x : ℕ} (h : pyRemove l x = some l') :
    x ∈ l ∧ l' = l.erase x := by
  unfold pyRemove at h
  by_cases hx : x ∈ l
  · rw [if_pos hx] at h
    exact ⟨hx, (Option.some_injective _ h).symm⟩
  · rw [if_neg hx] at h
    exact Option.noConfusion h

theorem getBody_out (s : SysState) (i : ℕ) (h : s.store.length ≤ i) :
    getBody s i = default := by
  simp [getBody, List.getD, List.getElem?_eq_none h]

theorem bodyOk_default : BodyOk (default : Body) := by
  constructor
  · simp [default]
  · intro h
    simp [default] at h

theorem bodyOk_new (mv x y vx vy : ℝ) (c : ℝ × ℝ × ℝ × ℝ) (radius : ℝ) (trail : ℤ)
    (idx : List ℕ) :
    BodyOk ({ mass := mv, x := x, y := y, vx := vx, vy := vy, ax := 0, ay := 0,
              colour := c, radius := radius, trail := trail,
              positions := [(x, y), (x, y)], has_collided := false,
              idx := idx } : Body) := by
  constructor
  · simp
  · intro h
    simpa using h

/-- Frame facts for a successful merge: the partition and trail invariants
are preserved, `runaway` and `calc_num` are untouched, the store grows, and
runaway bodies are unchanged. -/
theorem collide_frame (s : SysState) (a b : ℕ) (s' : SysState)
    (hInv : Inv s) (hTr : TrailInv s)
    (ha : a ∉ s.runaway) (hb : b ∉ s.runaway)
    (h : collide s a b = .ok s') :
    Inv s' ∧ TrailInv s' ∧ s'.runaway = s.runaway ∧ s'.calc_num = s.calc_num ∧
    s.store.length ≤ s'.store.length ∧
    (∀ i ∈ s.runaway, getBody s' i = getBody s i) := by
  simp only [collide, setBody_all] at h
  by_cases hm : (getBody s a).mass + (getBody s b).mass = 0
  · rw [if_pos hm] at h
    exact PyRes.noConfusion h
  · rw [if_neg hm] at h
    split at h
    · exact PyRes.noConfusion h
    · rename_i l1 heq1
      split at h
      · exact PyRes.noConfusion h
      · rename_i l2 heq2
        injection h with h
        obtain ⟨haA, hl1⟩ := pyRemove_eq_some heq1
        subst hl1
        obtain ⟨hbE, hl2⟩ := pyRemove_eq_some heq2
        subst hl2
        have hba : b ≠ a := (hInv.all_nd.mem_erase_iff.mp hbE).1
        have hbA : b ∈ s.all := (hInv.all_nd.mem_erase_iff.mp hbE).2
        have haL : a < s.store.length := hInv.all_lt a haA
        have hbL : b < s.store.length := hInv.all_lt b hbA
        have haC : a ∉ s.collided := hInv.all_col a haA
        have hbC : b ∉ s.collided := hInv.all_col b hbA
        have hall : s'.all = (s.all.erase a).erase b ++ [s.store.length] := by
          rw [← h]
          simp [mkPlanet, setBody]
        have hcol : s'.collided = s.collided ++ [a] ++ [b] := by
          rw [← h]
          simp [mkPlanet, setBody]
        have hrun : s'.runaway = s.runaway := by
          rw [← h]
          simp [mkPlanet, setBody]
        have hcn : s'.calc_num = s.calc_num := by
          rw [← h]
          simp [mkPlanet, setBody]
        have hlen : s'.store.length = s.store.length + 1 := by
          rw [← h]
          simp [mkPlanet, setBody]
        have hget_other : ∀ i, a ≠ i → b ≠ i → i < s.store.length →
            getBody s' i = getBody s i := by
          intro i hai hbi hiL
          rw [← h, getBody_mkPlanet_old _ _ _ _ _ _ _ _ _ _ i (by simpa [setBody] using hiL),
            getBody_listfields, getBody_two_sets_other s a b i _ _ hai hbi]
        have hget_a : getBody s' a = { getBody s a with has_collided := true } := by
          rw [← h, getBody_mkPlanet_old _ _ _ _ _ _ _ _ _ _ a (by simpa [setBody] using haL),
            getBody_listfields, getBody_setBody_ne _ _ _ _ hba,
            getBody_setBody_self _ _ _ haL]
        have hget_b : getBody s' b = { getBody s b with has_collided := true } := by
          rw [← h, getBody_mkPlanet_old _ _ _ _ _ _ _ _ _ _ b (by simpa [setBody] using hbL),
            getBody_listfields,
            getBody_setBody_self _ _ _ (by simpa [setBody] using hbL),
            getBody_setBody_ne _ _ _ _ (fun h0 => hba h0.symm)]
        have hEE : ∀ i, i ∈ (s.all.erase a).erase b ↔ i ≠ b ∧ i ≠ a ∧ i ∈ s.all := by
          intro i
          rw [(hInv.all_nd.erase a).mem_erase_iff, hInv.all_nd.mem_erase_iff]
        refine ⟨?_, ?_, hrun, hcn, by omega, ?_⟩
        · constructor
          · intro i hi
            rw [hall] at hi
            rcases List.mem_append.mp hi with hi | hi
            · have : i ∈ s.all := List.erase_subset _ _ (List.erase_subset _ _ hi)
              have := hInv.all_lt i this
              omega
            · rw [List.mem_singleton] at hi
              omega
          · intro i hi
            rw [hcol] at hi
            rcases List.mem_append.mp hi with hi | hi
            · rcases List.mem_append.mp hi with hi | hi
              · have := hInv.col_lt i hi
                omega
              · rw [List.mem_singleton] at hi
                omega
            · rw [List.mem_singleton] at hi
              omega
          · intro i hi
            rw [hrun] at hi
            have := hInv.run_lt i hi
            omega
          · rw [hall, List.nodup_append]
            refine ⟨(hInv.all_nd.erase a).erase b, List.nodup_singleton _, ?_⟩
            intro i hi hmem
            have : i ∈ s.all := List.erase_subset _ _ (List.erase_subset _ _ hi)
            have hiL := hInv.all_lt i this
            rw [List.mem_singleton] at hmem
            omega
          · rw [hcol, List.append_assoc, List.nodup_append]
            refine ⟨hInv.col_nd, by simp [hba.symm], ?_⟩
            intro i hi
            simp only [List.cons_append, List.nil_append, List.mem_cons,
              List.mem_singleton, List.not_mem_nil]
            rintro (rfl | rfl | h0)
            · exact haC hi
            · exact hbC hi
            · exact h0.elim
          · rw [hrun]
            exact hInv.run_nd
          · intro i hi hic
            rw [hall] at hi
            rw [hcol] at hic
            rcases List.mem_append.mp hi with hi | hi
            · obtain ⟨hib, hia, hiA⟩ := (hEE i).mp hi
              have := hInv.all_col i hiA
              rcases List.mem_append.mp hic with hic | hic
              · rcases List.mem_append.mp hic with hic | hic
                · exact this hic
                · exact hia (List.mem_singleton.mp hic)
              · exact hib (List.mem_singleton.mp hic)
            · rw [List.mem_singleton] at hi
              subst hi
              rcases List.mem_append.mp hic with hic | hic
              · rcases List.mem_append.mp hic with hic | hic
                · exact absurd (hInv.col_lt _ hic) (by omega)
                · rw [List.mem_singleton] at hic
                  omega
              · rw [List.mem_singleton] at hic
                omega
          · intro i hi hir
            rw [hall] at hi
            rw [hrun] at hir
            rcases List.mem_append.mp hi with hi | hi
            · have : i ∈ s.all := List.erase_subset _ _ (List.erase_subset _ _ hi)
              exact hInv.all_run i this hir
            · rw [List.mem_singleton] at hi
              subst hi
              exact absurd (hInv.run_lt _ hir) (by omega)
          · intro i hi hir
            rw [hcol] at hi
            rw [hrun] at hir
            rcases List.mem_append.mp hi with hi | hi
            · rcases List.mem_append.mp hi with hi | hi
              · exact hInv.col_run i hi hir
              · rw [List.mem_singleton] at hi
                subst hi
                exact ha hir
            · rw [List.mem_singleton] at hi
              subst hi
              exact hb hir
          · intro i hiL
            rw [hlen] at hiL
            rw [hall, hcol, hrun]
            by_cases hEnd : i = s.store.length
            · exact Or.inl (List.mem_append.mpr (Or.inr (List.mem_singleton.mpr hEnd)))
            · have hiL' : i < s.store.length := by omega
              rcases hInv.cover i hiL' with hi | hi | hi
              · by_cases hia : i = a
                · refine Or.inr (Or.inl ?_)
                  exact List.mem_append.mpr (Or.inl (List.mem_append.mpr
                    (Or.inr (List.mem_singleton.mpr hia))))
                · by_cases hib : i = b
                  · refine Or.inr (Or.inl ?_)
                    exact List.mem_append.mpr (Or.inr (List.mem_singleton.mpr hib))
                  · refine Or.inl (List.mem_append.mpr (Or.inl ?_))
                    exact (hEE i).mpr ⟨hib, hia, hi⟩
              · refine Or.inr (Or.inl ?_)
                exact List.mem_append.mpr (Or.inl (List.mem_append.mpr (Or.inl hi)))
              · exact Or.inr (Or.inr hi)
        · intro i
          by_cases hiL : i < s.store.length
          · by_cases hia : a = i
            · subst hia
              rw [hget_a]
              exact ⟨(hTr a).1, (hTr a).2⟩
            · by_cases hib : b = i
              · subst hib
                rw [hget_b]
                exact ⟨(hTr b).1, (hTr b).2⟩
              · rw [hget_other i hia hib hiL]
                exact hTr i
          · by_cases hEnd : i = s.store.length
            · subst hEnd
              rw [← h, getBody_mkPlanet_at _ _ _ _ _ _ _ _ _ _ _ (by simp [setBody])]
              exact bodyOk_new _ _ _ _ _ _ _ _ _
            · have : s'.store.length ≤ i := by omega
              rw [getBody_out _ i this]
              exact bodyOk_default
        · intro i hiR
          have hai : a ≠ i := fun hEq => ha (hEq ▸ hiR)
          have hbi : b ≠ i := fun hEq => hb (hEq ▸ hiR)
          exact hget_other i hai hbi (hInv.run_lt i hiR)


theorem Inv_setBody (s : SysState) (i : ℕ) (b : Body) (hInv : Inv s) :
    Inv (setBody s i b) := by
  refine ⟨?_, ?_, ?_, ?_, ?_, ?_, ?_, ?_, ?_, ?_⟩ <;>
    simp only [setBody_all, setBody_collided, setBody_runaway, setBody_store_length]
  · exact hInv.all_lt
  · exact hInv.col_lt
  · exact hInv.run_lt
  · exact hInv.all_nd
  · exact hInv.col_nd
  · exact hInv.run_nd
  · exact hInv.all_col
  · exact hInv.all_run
  · exact hInv.col_run
  · exact hInv.cover

theorem getBody_setBody_oob (s : SysState) (i : ℕ) (b : Body)
    (h : s.store.length ≤ i) (j : ℕ) : getBody (setBody s i b) j = getBody s j := by
  simp [getBody, setBody, List.set_eq_of_length_le h]

theorem TrailInv_setBody (s : SysState) (i : ℕ) (b : Body) (hTr : TrailInv s)
    (hpos : b.positions = (getBody s i).positions)
    (htr : b.trail = (getBody s i).trail) :
    TrailInv (setBody s i b) := by
  intro j
  by_cases hji : i = j
  · subst hji
    by_cases hL : i < s.store.length
    · rw [getBody_setBody_self _ _ _ hL]
      refine ⟨?_, ?_⟩
      · show 1 ≤ b.positions.length
        rw [hpos]
        exact (hTr i).1
      · show 2 ≤ b.trail → (b.positions.length : ℤ) ≤ b.trail
        rw [hpos, htr]
        exact (hTr i).2
    · rw [getBody_setBody_oob _ _ _ (le_of_not_lt hL)]
      exact hTr i
  · rw [getBody_setBody_ne _ _ _ _ hji]
    exact hTr j

/-- Frame facts for one call of `force` that returns normally. -/
theorem force_frame (s : SysState) (selfId otherId : ℕ) (s' : SysState) (fx fy : ℝ)
    (hInv : Inv s) (hTr : TrailInv s)
    (hself : selfId ∉ s.runaway) (hother : otherId ∉ s.runaway)
    (h : force s selfId otherId = .ok (s', fx, fy)) :
    Inv s' ∧ TrailInv s' ∧ s'.runaway = s.runaway ∧ s'.calc_num = s.calc_num ∧
    s.store.length ≤ s'.store.length ∧
    (∀ i ∈ s.runaway, getBody s' i = getBody s i) := by
  simp only [force] at h
  split at h
  · split at h
    · rename_i sc heq
      injection h with h
      rw [Prod.mk.injEq, Prod.mk.injEq] at h
      obtain ⟨rfl, -, -⟩ := h
      exact collide_frame s selfId otherId sc hInv hTr hself hother heq
    · exact PyRes.noConfusion h
  · split at h
    · injection h with h
      rw [Prod.mk.injEq, Prod.mk.injEq] at h
      obtain ⟨h, -, -⟩ := h
      split at h
      · subst h
        refine ⟨Inv_setBody _ _ _ (Inv_setBody _ _ _ hInv),
          TrailInv_setBody _ _ _ (TrailInv_setBody _ _ _ hTr rfl rfl) rfl rfl,
          by simp, by simp, by simp, ?_⟩
        intro i hiR
        rw [getBody_setBody_ne _ _ _ _ (fun h0 => hother (by rw [h0]; exact hiR)),
          getBody_setBody_ne _ _ _ _ (fun h0 => hself (by rw [h0]; exact hiR))]
      · subst h
        exact ⟨hInv, hTr, rfl, rfl, le_refl _, fun i _ => rfl⟩
    · injection h with h
      rw [Prod.mk.injEq, Prod.mk.injEq] at h
      obtain ⟨h, -, -⟩ := h
      subst h
      exact ⟨hInv, hTr, rfl, rfl, le_refl _, fun i _ => rfl⟩

theorem getD_mem_of_lt {l : List ℕ} {i : ℕ} (h : i < l.length) : l.getD i 0 ∈ l := by
  rw [List.getD_eq_getElem l 0 h]
  exact List.getElem_mem h

/-- Frame facts for the force-summation loop of `PlanetObject.update`. -/
theorem forceLoop_frame (fuel : ℕ) : ∀ (i : ℕ) (s : SysState) (selfId : ℕ) (ax ay : ℝ)
    (s1 : SysState) (nax nay : ℝ),
    Inv s → TrailInv s → selfId ∉ s.runaway →
    forceLoop fuel i s selfId ax ay = .ok (s1, nax, nay) →
    Inv s1 ∧ TrailInv s1 ∧ s1.runaway = s.runaway ∧ s1.calc_num = s.calc_num ∧
    s.store.length ≤ s1.store.length ∧
    (∀ j ∈ s.runaway, getBody s1 j = getBody s j) := by
  induction fuel with
  | zero =>
    intro i s selfId ax ay s1 nax nay hInv hTr hself h
    simp only [forceLoop] at h
    injection h with h
    rw [Prod.mk.injEq, Prod.mk.injEq] at h
    obtain ⟨h1, -, -⟩ := h
    subst h1
    exact ⟨hInv, hTr, rfl, rfl, le_refl _, fun j _ => rfl⟩
  | succ fuel ih =>
    intro i s selfId ax ay s1 nax nay hInv hTr hself h
    simp only [forceLoop] at h
    split at h
    · split at h
      · exact ih (i + 1) s selfId ax ay s1 nax nay hInv hTr hself h
      · rename_i hlt hne
        split at h
        · rename_i s' fx fy heq
          have hoA : s.all.getD i 0 ∈ s.all := getD_mem_of_lt hlt
          have hoR : s.all.getD i 0 ∉ s.runaway := hInv.all_run _ hoA
          obtain ⟨hI, hT, hR, hC, hL, hG⟩ :=
            force_frame s selfId (s.all.getD i 0) s' fx fy hInv hTr hself hoR heq
          obtain ⟨hI', hT', hR', hC', hL', hG'⟩ :=
            ih (i + 1) s' selfId (ax + fx) (ay + fy) s1 nax nay hI hT
              (by rw [hR]; exact hself) h
          refine ⟨hI', hT', by rw [hR', hR], by rw [hC', hC], le_trans hL hL', ?_⟩
          intro j hj
          rw [hG' j (by rw [hR]; exact hj), hG j hj]
        · exact PyRes.noConfusion h
    · injection h with h
      rw [Prod.mk.injEq, Prod.mk.injEq] at h
      obtain ⟨h1, -, -⟩ := h
      subst h1
      exact ⟨hInv, hTr, rfl, rfl, le_refl _, fun j _ => rfl⟩

/-- The function `trailStep` only ever touches the diagnostic counter of the state and
the positions list of the body. -/
theorem trailStep_shape (s : SysState) (b : Body) :
    ∃ p tp, trailStep s b = ({ s with totalpts := tp }, { b with positions := p }) := by
  unfold trailStep
  dsimp only
  split_ifs <;> exact ⟨_, _, rfl⟩

theorem trailStep_fst_store (s : SysState) (b : Body) :
    (trailStep s b).1.store = s.store := by
  obtain ⟨p, tp, h⟩ := trailStep_shape s b
  rw [h]

theorem trailStep_fst_all (s : SysState) (b : Body) :
    (trailStep s b).1.all = s.all := by
  obtain ⟨p, tp, h⟩ := trailStep_shape s b
  rw [h]

theorem trailStep_fst_collided (s : SysState) (b : Body) :
    (trailStep s b).1.collided = s.collided := by
  obtain ⟨p, tp, h⟩ := trailStep_shape s b
  rw [h]

theorem trailStep_fst_runaway (s : SysState) (b : Body) :
    (trailStep s b).1.runaway = s.runaway := by
  obtain ⟨p, tp, h⟩ := trailStep_shape s b
  rw [h]

theorem trailStep_fst_calc_num (s : SysState) (b : Body) :
    (trailStep s b).1.calc_num = s.calc_num := by
  obtain ⟨p, tp, h⟩ := trailStep_shape s b
  rw [h]

theorem trailStep_fst_bound (s : SysState) (b : Body) :
    (trailStep s b).1.bound = s.bound := by
  obtain ⟨p, tp, h⟩ := trailStep_shape s b
  rw [h]

theorem trailStep_snd_vx (s : SysState) (b : Body) :
    (trailStep s b).2.vx = b.vx := by
  obtain ⟨p, tp, h⟩ := trailStep_shape s b
  rw [h]

theorem trailStep_snd_vy (s : SysState) (b : Body) :
    (trailStep s b).2.vy = b.vy := by
  obtain ⟨p, tp, h⟩ := trailStep_shape s b
  rw [h]

theorem trailStep_snd_trail (s : SysState) (b : Body) :
    (trailStep s b).2.trail = b.trail := by
  obtain ⟨p, tp, h⟩ := trailStep_shape s b
  rw [h]

/-- The trail bookkeeping preserves the per-body trail facts. -/
theorem trailStep_bodyOk (s : SysState) (b : Body) (h : BodyOk b) :
    BodyOk (trailStep s b).2 := by
  obtain ⟨h1, h2⟩ := h
  unfold trailStep
  dsimp only
  by_cases ht : b.trail ≠ 0
  · rw [if_pos ht]
    by_cases hd : hypot (b.x - (b.positions.getLastD (0, 0)).1)
        (b.y - (b.positions.getLastD (0, 0)).2) ≥ s.tpdist
    · rw [if_pos hd]
      dsimp only
      by_cases hp : 0 ≤ b.trail ∧ b.trail < ((b.positions ++ [(b.x, b.y)]).length : ℤ)
      · rw [if_pos hp]
        refine ⟨?_, fun h3 => ?_⟩
        · dsimp only
          rw [List.length_tail, List.length_append]
          simp only [List.length_singleton]
          omega
        · dsimp only at h3 ⊢
          rw [List.length_tail, List.length_append] at *
          simp only [List.length_singleton] at *
          push_cast at *
          omega
      · rw [if_neg hp]
        refine ⟨?_, fun h3 => ?_⟩
        · dsimp only
          rw [List.length_append]
          simp only [List.length_singleton]
          omega
        · dsimp only at h3 ⊢
          rw [List.length_append] at *
          simp only [List.length_singleton] at *
          push_cast at *
          omega
    · rw [if_neg hd]
      dsimp only
      by_cases hp : 0 ≤ b.trail ∧ b.trail < (b.positions.length : ℤ)
      · rw [if_pos hp]
        refine ⟨?_, fun h3 => ?_⟩
        · dsimp only
          rw [List.length_tail]
          omega
        · dsimp only at h3 ⊢
          rw [List.length_tail] at *
          push_cast at *
          omega
      · rw [if_neg hp]
        exact ⟨h1, fun h3 => h2 h3⟩
  · rw [if_neg ht]
    exact ⟨h1, h2⟩

theorem applyKick_positions (b : Body) (n : ℕ) (dt : ℝ) :
    (applyKick b n dt).positions = b.positions := by
  unfold applyKick
  split <;> rfl

theorem applyKick_trail (b : Body) (n : ℕ) (dt : ℝ) :
    (applyKick b n dt).trail = b.trail := by
  unfold applyKick
  split <;> rfl

theorem applyKick_x (b : Body) (n : ℕ) (dt : ℝ) : (applyKick b n dt).x = b.x := by
  unfold applyKick
  split <;> rfl

theorem applyKick_y (b : Body) (n : ℕ) (dt : ℝ) : (applyKick b n dt).y = b.y := by
  unfold applyKick
  split <;> rfl

theorem applyKick_ax (b : Body) (n : ℕ) (dt : ℝ) : (applyKick b n dt).ax = b.ax := by
  unfold applyKick
  split <;> rfl

theorem applyKick_ay (b : Body) (n : ℕ) (dt : ℝ) : (applyKick b n dt).ay = b.ay := by
  unfold applyKick
  split <;> rfl

theorem applyKick_vx (b : Body) (n : ℕ) (dt : ℝ) :
    (applyKick b n dt).vx = b.vx + (if n = 0 then dt / 2 else dt) * b.ax := by
  unfold applyKick
  split <;> rfl

theorem applyKick_vy (b : Body) (n : ℕ) (dt : ℝ) :
    (applyKick b n dt).vy = b.vy + (if n = 0 then dt / 2 else dt) * b.ay := by
  unfold applyKick
  split <;> rfl

theorem bodyOk_of_eq {b b' : Body} (h : BodyOk b) (hp : b'.positions = b.positions)
    (ht : b'.trail = b.trail) : BodyOk b' := by
  unfold BodyOk at *
  rw [hp, ht]
  exact h

theorem TrailInv_setBody_ok (s : SysState) (i : ℕ) (b : Body) (hTr : TrailInv s)
    (hb : BodyOk b) : TrailInv (setBody s i b) := by
  intro j
  by_cases hji : i = j
  · subst hji
    by_cases hL : i < s.store.length
    · rw [getBody_setBody_self _ _ _ hL]
      exact hb
    · rw [getBody_setBody_oob _ _ _ (le_of_not_lt hL)]
      exact hTr i
  · rw [getBody_setBody_ne _ _ _ _ hji]
    exact hTr j

theorem TrailInv_of_store_eq {s s' : SysState} (h : s'.store = s.store)
    (hT : TrailInv s) : TrailInv s' := by
  intro i
  show BodyOk (s'.store.getD i default)
  rw [h]
  exact hT i

theorem Inv_totalpts (s : SysState) (tp : ℤ) (hInv : Inv s) :
    Inv { s with totalpts := tp } :=
  ⟨hInv.all_lt, hInv.col_lt, hInv.run_lt, hInv.all_nd, hInv.col_nd, hInv.run_nd,
    hInv.all_col, hInv.all_run, hInv.col_run, hInv.cover⟩

theorem Inv_trailStep_fst (s : SysState) (b : Body) (hInv : Inv s) :
    Inv (trailStep s b).1 := by
  obtain ⟨p, tp, hs⟩ := trailStep_shape s b
  rw [hs]
  exact Inv_totalpts s tp hInv

theorem TrailInv_trailStep_fst (s : SysState) (b : Body) (hT : TrailInv s) :
    TrailInv (trailStep s b).1 :=
  TrailInv_of_store_eq (trailStep_fst_store s b) hT

theorem getBody_trailStep_fst (s : SysState) (b : Body) (i : ℕ) :
    getBody (trailStep s b).1 i = getBody s i := by
  show (trailStep s b).1.store.getD i default = _
  rw [trailStep_fst_store]
  rfl

/-- The boundary/overflow retirement of a body preserves the partition
invariant. -/
theorem Inv_escape (X : SysState) (selfId : ℕ) (al : List ℕ)
    (hal : al = X.all.erase selfId) (hInv : Inv X) (hm : selfId ∈ X.all) :
    Inv { X with all := al, runaway := X.runaway ++ [selfId] } := by
  subst hal
  have hsL : selfId < X.store.length := hInv.all_lt selfId hm
  have hsR : selfId ∉ X.runaway := hInv.all_run selfId hm
  have hsC : selfId ∉ X.collided := hInv.all_col selfId hm
  constructor
  · intro i hi
    exact hInv.all_lt i (List.erase_subset _ _ hi)
  · exact hInv.col_lt
  · intro i hi
    rcases List.mem_append.mp hi with hi | hi
    · exact hInv.run_lt i hi
    · rw [List.mem_singleton] at hi
      subst hi
      exact hsL
  · exact hInv.all_nd.erase selfId
  · exact hInv.col_nd
  · rw [List.nodup_append]
    refine ⟨hInv.run_nd, List.nodup_singleton _, ?_⟩
    intro i hi hmem
    rw [List.mem_singleton] at hmem
    subst hmem
    exact hsR hi
  · intro i hi
    exact hInv.all_col i (List.erase_subset _ _ hi)
  · intro i hi hir
    have hine : i ≠ selfId := (hInv.all_nd.mem_erase_iff.mp hi).1
    have hiA : i ∈ X.all := (hInv.all_nd.mem_erase_iff.mp hi).2
    rcases List.mem_append.mp hir with hir | hir
    · exact hInv.all_run i hiA hir
    · rw [List.mem_singleton] at hir
      exact hine hir
  · intro i hi hir
    rcases List.mem_append.mp hir with hir | hir
    · exact hInv.col_run i hi hir
    · rw [List.mem_singleton] at hir
      subst hir
      exact hsC hi
  · intro i hiL
    rcases hInv.cover i hiL with hi | hi | hi
    · by_cases hie : i = selfId
      · subst hie
        exact Or.inr (Or.inr (List.mem_append.mpr (Or.inr (List.mem_singleton.mpr rfl))))
      · exact Or.inl (hInv.all_nd.mem_erase_iff.mpr ⟨hie, hi⟩)
    · exact Or.inr (Or.inl hi)
    · exact Or.inr (Or.inr (List.mem_append.mpr (Or.inl hi)))

theorem TrailInv_lists (X : SysState) (al run : List ℕ) (hT : TrailInv X) :
    TrailInv { X with all := al, runaway := run } := fun i => hT i

theorem getBody_listfields2 (X : SysState) (al run : List ℕ) (i : ℕ) :
    getBody { X with all := al, runaway := run } i = getBody X i := rfl

/-- Frame facts for one body update that returns normally: the invariants
are preserved, the runaway partition only grows, and already-runaway bodies
are untouched. -/
theorem update_frame (s : SysState) (selfId : ℕ) (dt : ℝ) (s' : SysState)
    (hInv : Inv s) (hTr : TrailInv s) (hself : selfId ∈ s.all)
    (h : update s selfId dt = .ok s') :
    Inv s' ∧ TrailInv s' ∧ s.store.length ≤ s'.store.length ∧
    (∀ j ∈ s.runaway, j ∈ s'.runaway ∧ getBody s' j = getBody s j) := by
  have hselfR : selfId ∉ s.runaway := hInv.all_run selfId hself
  simp only [update, setBody_all] at h
  split at h
  · exact PyRes.noConfusion h
  · rename_i s1 nax nay heq
    obtain ⟨hI1, hT1, hR1, hC1, hL1, hG1⟩ :=
      forceLoop_frame s.all.length 0 s selfId 0 0 s1 nax nay hInv hTr hselfR heq
    have hBok : ∀ b1 : Body, b1.positions = (getBody s1 selfId).positions →
        b1.trail = (getBody s1 selfId).trail → BodyOk (trailStep s1 b1).2 := by
      intro b1 hp ht
      exact trailStep_bodyOk s1 b1 (bodyOk_of_eq (hT1 selfId) hp ht)
    split at h
    · split at h
      · rename_i l hrem
        injection h with h
        obtain ⟨hmem, hl⟩ := pyRemove_eq_some hrem
        subst hl
        refine ⟨?_, ?_, ?_, ?_⟩
        · rw [← h]
          refine Inv_escape _ _ _ rfl ?_ hmem
          exact Inv_setBody _ _ _ (Inv_trailStep_fst _ _ hI1)
        · rw [← h]
          refine TrailInv_lists _ _ _ ?_
          refine TrailInv_setBody_ok _ _ _ (TrailInv_trailStep_fst _ _ hT1) ?_
          refine bodyOk_of_eq (hBok _ ?_ ?_) rfl rfl
          · rw [applyKick_positions]
          · rw [applyKick_trail]
        · rw [← h]
          simp only [setBody, trailStep_fst_store, List.length_set]
          exact hL1
        · intro j hj
          have hsj : selfId ≠ j := fun h0 => hselfR (h0 ▸ hj)
          constructor
          · rw [← h]
            simp only [setBody_runaway, trailStep_fst_runaway, hR1, List.mem_append]
            exact Or.inl hj
          · rw [← h, getBody_listfields2,
              getBody_setBody_ne _ _ _ _ hsj, getBody_trailStep_fst]
            exact hG1 j hj
      · exact PyRes.noConfusion h
    · injection h with h
      refine ⟨?_, ?_, ?_, ?_⟩
      · rw [← h]
        exact Inv_setBody _ _ _ (Inv_trailStep_fst _ _ hI1)
      · rw [← h]
        refine TrailInv_setBody_ok _ _ _ (TrailInv_trailStep_fst _ _ hT1) ?_
        refine bodyOk_of_eq (hBok _ ?_ ?_) rfl rfl
        · rw [applyKick_positions]
        · rw [applyKick_trail]
      · rw [← h]
        simp only [setBody, trailStep_fst_store, List.length_set]
        exact hL1
      · intro j hj
        have hsj : selfId ≠ j := fun h0 => hselfR (h0 ▸ hj)
        constructor
        · rw [← h]
          simp only [setBody_runaway, trailStep_fst_runaway, hR1]
          exact hj
        · rw [← h, getBody_setBody_ne _ _ _ _ hsj, getBody_trailStep_fst]
          exact hG1 j hj

/-- Frame facts for the body loop of `GravSystem.update`. -/
theorem stepLoop_frame (fuel : ℕ) : ∀ (i : ℕ) (s : SysState) (delta : ℝ) (s' : SysState),
    Inv s → TrailInv s → stepLoop fuel i s delta = .ok s' →
    Inv s' ∧ TrailInv s' ∧ s.store.length ≤ s'.store.length ∧
    (∀ j ∈ s.runaway, j ∈ s'.runaway ∧ getBody s' j = getBody s j) := by
  induction fuel with
  | zero =>
    intro i s delta s' hInv hTr h
    simp only [stepLoop] at h
    injection h with h
    subst h
    exact ⟨hInv, hTr, le_refl _, fun j hj => ⟨hj, rfl⟩⟩
  | succ fuel ih =>
    intro i s delta s' hInv hTr h
    simp only [stepLoop] at h
    split at h
    · rename_i hlt
      split at h
      · rename_i s1 heq
        have hmem : s.all.getD i 0 ∈ s.all := getD_mem_of_lt hlt
        obtain ⟨hI1, hT1, hL1, hRG1⟩ := update_frame s _ delta s1 hInv hTr hmem heq
        obtain ⟨hI', hT', hL', hRG'⟩ := ih (i + 1) s1 delta s' hI1 hT1 h
        refine ⟨hI', hT', le_trans hL1 hL', ?_⟩
        intro j hj
        obtain ⟨hj1, hg1⟩ := hRG1 j hj
        obtain ⟨hj2, hg2⟩ := hRG' j hj1
        exact ⟨hj2, by rw [hg2, hg1]⟩
      · exact PyRes.noConfusion h
    · injection h with h
      subst h
      exact ⟨hInv, hTr, le_refl _, fun j hj => ⟨hj, rfl⟩⟩

theorem Inv_counters (X : SysState) (cn : ℕ) (st : ℝ) (hInv : Inv X) :
    Inv { X with calc_num := cn, simtime := st } :=
  ⟨hInv.all_lt, hInv.col_lt, hInv.run_lt, hInv.all_nd, hInv.col_nd, hInv.run_nd,
    hInv.all_col, hInv.all_run, hInv.col_run, hInv.cover⟩

/-- Frame facts for one completed `GravSystem.update` pass. -/
theorem sysUpdate_frame (s : SysState) (delta : ℝ) (s' : SysState)
    (hInv : Inv s) (hTr : TrailInv s) (h : sysUpdate s delta = .ok s') :
    Inv s' ∧ TrailInv s' ∧ s.store.length ≤ s'.store.length ∧
    (∀ j ∈ s.runaway, j ∈ s'.runaway ∧ getBody s' j = getBody s j) := by
  simp only [sysUpdate] at h
  split at h
  · rename_i s1 heq
    injection h with h
    obtain ⟨hI1, hT1, hL1, hRG1⟩ := stepLoop_frame _ 0 s delta s1 hInv hTr heq
    refine ⟨?_, ?_, ?_, ?_⟩
    · rw [← h]
      exact Inv_counters _ _ _ hI1
    · rw [← h]
      exact fun i => hT1 i
    · rw [← h]
      exact hL1
    · intro j hj
      rw [← h]
      exact hRG1 j hj
  · exact PyRes.noConfusion h

theorem Inv_mkSystem (cG cdt bound f_calc : ℝ) (random autoradius : Bool)
    (r_const : ℝ) (collision : Bool) (rf vf tpdist : ℝ) :
    Inv (mkSystem cG cdt bound f_calc random autoradius r_const collision rf vf tpdist) := by
  constructor <;> simp [mkSystem]

theorem TrailInv_mkSystem (cG cdt bound f_calc : ℝ) (random autoradius : Bool)
    (r_const : ℝ) (collision : Bool) (rf vf tpdist : ℝ) :
    TrailInv (mkSystem cG cdt bound f_calc random autoradius r_const collision rf vf tpdist) := by
  intro i
  rw [getBody_out _ _ (by simp [mkSystem])]
  exact bodyOk_default

theorem Inv_mkPlanet (s : SysState) (m x y vx vy : ℝ) (c : ℝ × ℝ × ℝ × ℝ)
    (radius : ℝ) (trail : ℤ) (idx : List ℕ) (hInv : Inv s) :
    Inv (mkPlanet s m x y vx vy c radius trail idx) := by
  have hLnotA : s.store.length ∉ s.all := fun hc =>
    absurd (hInv.all_lt _ hc) (by omega)
  have hLnotC : s.store.length ∉ s.collided := fun hc =>
    absurd (hInv.col_lt _ hc) (by omega)
  have hLnotR : s.store.length ∉ s.runaway := fun hc =>
    absurd (hInv.run_lt _ hc) (by omega)
  constructor
  · intro i hi
    simp only [mkPlanet, List.mem_append, List.mem_singleton] at hi
    simp only [mkPlanet, List.length_append, List.length_singleton]
    rcases hi with hi | hi
    · have := hInv.all_lt i hi
      omega
    · omega
  · intro i hi
    simp only [mkPlanet] at hi
    simp only [mkPlanet, List.length_append, List.length_singleton]
    have := hInv.col_lt i hi
    omega
  · intro i hi
    simp only [mkPlanet] at hi
    simp only [mkPlanet, List.length_append, List.length_singleton]
    have := hInv.run_lt i hi
    omega
  · simp only [mkPlanet]
    rw [List.nodup_append]
    refine ⟨hInv.all_nd, List.nodup_singleton _, ?_⟩
    intro i hi hmem
    rw [List.mem_singleton] at hmem
    subst hmem
    exact hLnotA hi
  · exact hInv.col_nd
  · exact hInv.run_nd
  · intro i hi
    simp only [mkPlanet, List.mem_append, List.mem_singleton] at hi ⊢
    rcases hi with hi | hi
    · exact hInv.all_col i hi
    · subst hi
      exact hLnotC
  · intro i hi
    simp only [mkPlanet, List.mem_append, List.mem_singleton] at hi ⊢
    rcases hi with hi | hi
    · exact hInv.all_run i hi
    · subst hi
      exact hLnotR
  · intro i hi
    simp only [mkPlanet] at hi ⊢
    exact hInv.col_run i hi
  · intro i hiL
    simp only [mkPlanet, List.length_append, List.length_singleton] at hiL
    simp only [mkPlanet, List.mem_append, List.mem_singleton]
    by_cases hEnd : i = s.store.length
    · exact Or.inl (Or.inr hEnd)
    · rcases hInv.cover i (by omega) with hi | hi | hi
      · exact Or.inl (Or.inl hi)
      · exact Or.inr (Or.inl hi)
      · exact Or.inr (Or.inr hi)

theorem TrailInv_mkPlanet (s : SysState) (m x y vx vy : ℝ) (c : ℝ × ℝ × ℝ × ℝ)
    (radius : ℝ) (trail : ℤ) (idx : List ℕ) (hTr : TrailInv s) :
    TrailInv (mkPlanet s m x y vx vy c radius trail idx) := by
  intro i
  by_cases hiL : i < s.store.length
  · rw [getBody_mkPlanet_old _ _ _ _ _ _ _ _ _ _ i hiL]
    exact hTr i
  · by_cases hEnd : i = s.store.length
    · rw [getBody_mkPlanet_at _ _ _ _ _ _ _ _ _ _ i hEnd]
      exact bodyOk_new _ _ _ _ _ _ _ _ _
    · rw [getBody_out _ i (by simp only [mkPlanet, List.length_append,
        List.length_singleton]; omega)]
      exact bodyOk_default

/-- Every reachable state satisfies the partition and trail invariants. -/
theorem reachable_inv {s : SysState} (h : Reachable s) : Inv s ∧ TrailInv s := by
  induction h with
  | base cG cdt bound f_calc random autoradius r_const collision rf vf tpdist =>
    exact ⟨Inv_mkSystem _ _ _ _ _ _ _ _ _ _ _, TrailInv_mkSystem _ _ _ _ _ _ _ _ _ _ _⟩
  | planet m x y vx vy color radius trail idx _ ih =>
    exact ⟨Inv_mkPlanet _ _ _ _ _ _ _ _ _ _ ih.1, TrailInv_mkPlanet _ _ _ _ _ _ _ _ _ _ ih.2⟩
  | step delta _ hok ih =>
    obtain ⟨hI, hT, -, -⟩ := sysUpdate_frame _ _ _ ih.1 ih.2 hok
    exact ⟨hI, hT⟩

/-- C1: for every merge of two bodies A and B performed by `collide` that
completes normally, the new body's mass equals `massA + massB` exactly, its
position is the mass-weighted average of the two input positions (center of
mass), and its velocity satisfies
`newVelocity * newMass = vf * (massA*velA + massB*velB)` componentwise. -/
theorem c1_collide_merge_conservation (s : SysState) (a b : ℕ) (s' : SysState)
    (hma : 0 ≤ (getBody s a).mass) (hmb : 0 ≤ (getBody s b).mass)
    (h : collide s a b = .ok s') :
    (getBody s' s.store.length).mass = (getBody s a).mass + (getBody s b).mass ∧
    (getBody s' s.store.length).x =
      ((getBody s a).mass * (getBody s a).x + (getBody s b).mass * (getBody s b).x) /
        ((getBody s a).mass + (getBody s b).mass) ∧
    (getBody s' s.store.length).y =
      ((getBody s a).mass * (getBody s a).y + (getBody s b).mass * (getBody s b).y) /
        ((getBody s a).mass + (getBody s b).mass) ∧
    (getBody s' s.store.length).vx * (getBody s' s.store.length).mass =
      s.vf * ((getBody s a).mass * (getBody s a).vx + (getBody s b).mass * (getBody s b).vx) ∧
    (getBody s' s.store.length).vy * (getBody s' s.store.length).mass =
      s.vf * ((getBody s a).mass * (getBody s a).vy + (getBody s b).mass * (getBody s b).vy) := by
  obtain ⟨hm, hmass, hx, hy, hvx, hvy⟩ := collide_ok_newbody s a b s' h
  have habs : |(getBody s a).mass + (getBody s b).mass| =
      (getBody s a).mass + (getBody s b).mass := abs_of_nonneg (add_nonneg hma hmb)
  refine ⟨by rw [hmass, habs], hx, hy, ?_, ?_⟩
  · rw [hvx, hmass, habs, div_mul_cancel₀ _ hm]
  · rw [hvy, hmass, habs, div_mul_cancel₀ _ hm]

/-- Witness for C1: the two bodies of `c1S` (masses 2 and 1, `vf = 1/2`)
merge successfully and the merged body satisfies the conservation laws. -/
theorem c1_witness :
    0 ≤ (getBody c1S 0).mass ∧ 0 ≤ (getBody c1S 1).mass ∧
    collide c1S 0 1 = .ok (resState (collide c1S 0 1)) ∧
    (getBody (resState (collide c1S 0 1)) c1S.store.length).mass =
      (getBody c1S 0).mass + (getBody c1S 1).mass := by
  have h0 : 0 ≤ (getBody c1S 0).mass := by
    norm_num [c1S, mkPlanet, mkSystem, getBody, List.getD]
  have h1 : 0 ≤ (getBody c1S 1).mass := by
    norm_num [c1S, mkPlanet, mkSystem, getBody, List.getD]
  have hok : collide c1S 0 1 = .ok (resState (collide c1S 0 1)) := by
    have hne : isExn (collide c1S 0 1) = false := by
      norm_num [c1S, mkPlanet, mkSystem, collide, getBody, setBody, pyRemove, isExn,
        List.getD]
    cases hE : collide c1S 0 1 with
    | ok s' => rfl
    | exn e st =>
      rw [hE] at hne
      exact absurd hne (by simp [isExn])
  exact ⟨h0, h1, hok, (c1_collide_merge_conservation c1S 0 1 _ h0 h1 hok).1⟩

/-- C9: for every Cartesian pair `(x, y)` with `x ≠ 0`, converting to polar
with `to_polar` and back with `to_cartesian` (angles in degrees) recovers
`(x, y)` — exactly, over the reals that model the floats. -/
theorem to_polar_roundtrip (x y : ℝ) (hx : x ≠ 0) :
    to_cartesian (to_polar x y false).1 (to_polar x y false).2 false = (x, y) := by
  have hcos := cos_arctan_scaled y hx
  have hsin := sin_arctan_scaled y hx
  simp only [to_polar, to_cartesian, if_pos hx, Bool.false_eq_true, if_false]
  rcases lt_trichotomy x 0 with hneg | hzero | hpos
  · rw [if_pos hneg, radians_degrees_add_pi, Real.cos_add_pi, Real.sin_add_pi]
    rw [Prod.mk.injEq]
    constructor
    · rw [mul_neg, hcos, abs_of_neg hneg, neg_neg]
    · rw [mul_neg, hsin, abs_of_neg hneg]
      field_simp
  · exact absurd hzero hx
  · rw [if_neg (asymm hpos), if_neg (by rintro ⟨h0, -⟩; exact hx h0)]
    by_cases hy : y < 0
    · rw [if_pos ⟨hpos, hy⟩, radians_degrees_add_two_pi, Real.cos_add_two_pi,
        Real.sin_add_two_pi, Prod.mk.injEq]
      constructor
      · rw [hcos, abs_of_pos hpos]
      · rw [hsin, abs_of_pos hpos]
        field_simp
    · rw [if_neg (by rintro ⟨-, h1⟩; exact hy h1), radians_degrees, Prod.mk.injEq]
      constructor
      · rw [hcos, abs_of_pos hpos]
      · rw [hsin, abs_of_pos hpos]
        field_simp


/-- C8: at every reachable state of a system, every body ever created is
present in exactly one of the three partitions (`all`, `collided`,
`runaway`); the partitions name only created bodies and contain no
duplicates, so no body is duplicated or orphaned by any update, merge or
escape. -/
theorem c8_partitions_exactly_one (s : SysState) (h : Reachable s) :
    ExactlyOnePartition s ∧
    (∀ i ∈ s.all, i < s.store.length) ∧ (∀ i ∈ s.collided, i < s.store.length) ∧
    (∀ i ∈ s.runaway, i < s.store.length) ∧
    s.all.Nodup ∧ s.collided.Nodup ∧ s.runaway.Nodup := by
  obtain ⟨hInv, -⟩ := reachable_inv h
  refine ⟨?_, hInv.all_lt, hInv.col_lt, hInv.run_lt, hInv.all_nd, hInv.col_nd, hInv.run_nd⟩
  intro i hiL
  rcases hInv.cover i hiL with hi | hi | hi
  · exact Or.inl ⟨hi, hInv.all_col i hi, hInv.all_run i hi⟩
  · exact Or.inr (Or.inl ⟨fun hA => hInv.all_col i hA hi, hi, hInv.col_run i hi⟩)
  · exact Or.inr (Or.inr ⟨fun hA => hInv.all_run i hA hi, fun hC => hInv.col_run i hC hi, hi⟩)

/-- Witness for C8: a freshly built one-body system is reachable and its
partitions split every created body exactly once. -/
theorem c8_witness : Reachable c8S ∧ ExactlyOnePartition c8S := by
  have hr : Reachable c8S :=
    Reachable.planet 1 0 0 0 0 (1, 1, 1, 1) 5 100 [0]
      (Reachable.base 1 1 10000 50 false false 3 true 1 1 1)
  exact ⟨hr, (c8_partitions_exactly_one c8S hr).1⟩

/-- C7: once a body is in the escaped (`runaway`) partition of a reachable
system, then after any number of further completed steps it is still
escaped, it is never again present in the active list, and its state is
never modified again (its update never runs on it): no transition leads
back to active. -/
theorem c7_escaped_is_terminal (s : SysState) (j n : ℕ) (delta : ℝ) (s' : SysState)
    (hr : Reachable s) (hid : j ∈ s.runaway) (h : steps n s delta = .ok s') :
    j ∈ s'.runaway ∧ j ∉ s'.all ∧ getBody s' j = getBody s j := by
  induction n generalizing s with
  | zero =>
    simp only [steps] at h
    injection h with h
    subst h
    obtain ⟨hInv, -⟩ := reachable_inv hr
    exact ⟨hid, fun hA => hInv.all_run j hA hid, rfl⟩
  | succ n ih =>
    simp only [steps] at h
    split at h
    · rename_i s1 heq
      obtain ⟨hInv, hTr⟩ := reachable_inv hr
      obtain ⟨-, -, -, hRG⟩ := sysUpdate_frame s delta s1 hInv hTr heq
      obtain ⟨hid1, hg1⟩ := hRG j hid
      obtain ⟨h1, h2, h3⟩ := ih s1 (Reachable.step delta hr heq) hid1 h
      exact ⟨h1, h2, by rw [h3, hg1]⟩
    · exact PyRes.noConfusion h


/-- Witness for C7: the single body of `c7S` (placed at `x = 150` with
`bound = 100`) escapes on the first step; from the resulting reachable
state, a further step leaves it escaped, outside the active list, and
untouched. -/
theorem c7_witness :
    Reachable c7S1 ∧ 0 ∈ c7S1.runaway ∧
    steps 1 c7S1 1 = .ok (resState (steps 1 c7S1 1)) ∧
    0 ∈ (resState (steps 1 c7S1 1)).runaway ∧ 0 ∉ (resState (steps 1 c7S1 1)).all ∧
    getBody (resState (steps 1 c7S1 1)) 0 = getBody c7S1 0 := by
  have hne : isExn (sysUpdate c7S 1) = false := by
    norm_num [c7S, mkPlanet, mkSystem, sysUpdate, stepLoop, update, forceLoop,
      applyKick, trailStep, getBody, setBody, pyRemove, isExn, List.getD,
      List.getLastD, hypot_zero_zero]
  have hco : sysUpdate c7S 1 = .ok c7S1 := by
    show sysUpdate c7S 1 = .ok (resState (sysUpdate c7S 1))
    cases hE : sysUpdate c7S 1 with
    | ok s' => rfl
    | exn e st =>
      rw [hE] at hne
      exact absurd hne (by simp [isExn])
  have hr : Reachable c7S1 :=
    Reachable.step 1 (Reachable.planet 1 150 0 0 0 (1, 1, 1, 1) 5 100 [0]
      (Reachable.base 1 1 100 50 false false 3 true 1 1 1)) hco
  have hrun : 0 ∈ c7S1.runaway := by
    norm_num [c7S1, c7S, mkPlanet, mkSystem, sysUpdate, stepLoop, update, forceLoop,
      applyKick, trailStep, getBody, setBody, pyRemove, resState, List.getD,
      List.getLastD, hypot_zero_zero]
  have hne2 : isExn (steps 1 c7S1 1) = false := by
    norm_num [c7S1, c7S, steps, mkPlanet, mkSystem, sysUpdate, stepLoop, update,
      forceLoop, applyKick, trailStep, getBody, setBody, pyRemove, isExn, resState,
      List.getD, List.getLastD, hypot_zero_zero]
  have hst : steps 1 c7S1 1 = .ok (resState (steps 1 c7S1 1)) := by
    cases hE : steps 1 c7S1 1 with
    | ok s' => rfl
    | exn e st =>
      rw [hE] at hne2
      exact absurd hne2 (by simp [isExn])
  obtain ⟨h1, h2, h3⟩ := c7_escaped_is_terminal c7S1 0 1 1 _ hr hrun hst
  exact ⟨hr, hrun, hst, h1, h2, h3⟩


/-- C5 (amended): for every body of a reachable system whose trail cap is at
least `2`, the recorded trail sequence has length at most the cap, after any
number of steps.  (The original claim, for every positive cap, fails at cap
`1`: the trail starts with two copies of the initial position and each pass
evicts at most one point after appending, so the length can stay at `2`.) -/
theorem c5_trail_cap_amended (s : SysState) (i : ℕ) (h : Reachable s)
    (hcap : 2 ≤ (getBody s i).trail) :
    ((getBody s i).positions.length : ℤ) ≤ (getBody s i).trail :=
  ((reachable_inv h).2 i).2 hcap

/-- Witness for the amended C5 at a concrete reachable state. -/
theorem c5_amended_witness :
    Reachable c5W ∧ 2 ≤ (getBody c5W 0).trail ∧
    ((getBody c5W 0).positions.length : ℤ) ≤ (getBody c5W 0).trail := by
  have hr : Reachable c5W :=
    Reachable.planet 1 0 0 0 0 (1, 1, 1, 1) 5 100 [0]
      (Reachable.base 1 1 10000 50 false false 3 true 1 1 1)
  have hcap : 2 ≤ (getBody c5W 0).trail := by
    norm_num [c5W, mkPlanet, mkSystem, getBody, List.getD]
  exact ⟨hr, hcap, c5_trail_cap_amended c5W 0 hr hcap⟩

/-- Counterexample for C5 as stated: the body of `c5S` has the positive
trail cap `1`, yet after one system step its recorded trail holds two
points, exceeding the cap. -/
theorem c5_counterexample :
    isExn (sysUpdate c5S 1) = false ∧
    (getBody (resState (sysUpdate c5S 1)) 0).trail = 1 ∧
    (getBody (resState (sysUpdate c5S 1)) 0).positions.length = 2 ∧
    ¬ (((getBody (resState (sysUpdate c5S 1)) 0).positions.length : ℤ) ≤
        (getBody (resState (sysUpdate c5S 1)) 0).trail) := by
  norm_num [c5S, mkPlanet, mkSystem, sysUpdate, stepLoop, update, forceLoop,
    applyKick, trailStep, getBody, setBody, pyRemove, resState, isExn, List.getD,
    List.getLastD, hypot_y_zero]

/-- C10 (amended): for every body of a reachable system, the recorded
position history always holds at least one entry, so reading the most
recent trail point is well-defined.  (The original claim of a two-entry
minimum fails exactly at trail cap `1`, where a pass with no new point still
evicts one of the two initial copies.) -/
theorem c10_trail_nonempty_amended (s : SysState) (i : ℕ) (h : Reachable s) :
    1 ≤ (getBody s i).positions.length :=
  ((reachable_inv h).2 i).1

/-- Witness for the amended C10 at a concrete reachable state. -/
theorem c10_amended_witness :
    Reachable c10W ∧ 1 ≤ (getBody c10W 0).positions.length := by
  have hr : Reachable c10W :=
    Reachable.planet 1 2 0 0 0 (1, 1, 1, 1) 5 100 [0]
      (Reachable.base 1 1 10000 50 false false 3 true 1 1 1)
  exact ⟨hr, c10_trail_nonempty_amended c10W 0 hr⟩

/-- Counterexample for C10 as stated: the stationary body of `c10S` has
trail cap `1`; its first update appends nothing (it has not moved) but
still evicts one point, leaving a single entry — below the claimed
two-entry minimum. -/
theorem c10_counterexample :
    isExn (sysUpdate c10S 1) = false ∧
    (getBody (resState (sysUpdate c10S 1)) 0).trail = 1 ∧
    (getBody (resState (sysUpdate c10S 1)) 0).positions.length = 1 ∧
    ¬ (2 ≤ (getBody (resState (sysUpdate c10S 1)) 0).positions.length) := by
  norm_num [c10S, mkPlanet, mkSystem, sysUpdate, stepLoop, update, forceLoop,
    applyKick, trailStep, getBody, setBody, pyRemove, resState, isExn, List.getD,
    List.getLastD, hypot_y_zero]


theorem collide_calc_num (s : SysState) (a b : ℕ) (s' : SysState)
    (h : collide s a b = .ok s') : s'.calc_num = s.calc_num := by
  simp only [collide, setBody_all] at h
  split at h
  · exact PyRes.noConfusion h
  · split at h
    · exact PyRes.noConfusion h
    · split at h
      · exact PyRes.noConfusion h
      · injection h with h
        rw [← h]
        simp [mkPlanet, setBody]

theorem force_calc_num (s : SysState) (selfId otherId : ℕ) (s' : SysState) (fx fy : ℝ)
    (h : force s selfId otherId = .ok (s', fx, fy)) : s'.calc_num = s.calc_num := by
  simp only [force] at h
  split at h
  · split at h
    · rename_i sc heq
      injection h with h
      rw [Prod.mk.injEq, Prod.mk.injEq] at h
      obtain ⟨rfl, -, -⟩ := h
      exact collide_calc_num _ _ _ _ heq
    · exact PyRes.noConfusion h
  · split at h
    · injection h with h
      rw [Prod.mk.injEq, Prod.mk.injEq] at h
      obtain ⟨h, -, -⟩ := h
      split at h <;> (rw [← h]; try simp)
    · injection h with h
      rw [Prod.mk.injEq, Prod.mk.injEq] at h
      obtain ⟨h, -, -⟩ := h
      rw [← h]

theorem forceLoop_calc_num (fuel : ℕ) : ∀ (i : ℕ) (s : SysState) (selfId : ℕ)
    (ax ay : ℝ) (s1 : SysState) (nax nay : ℝ),
    forceLoop fuel i s selfId ax ay = .ok (s1, nax, nay) → s1.calc_num = s.calc_num := by
  induction fuel with
  | zero =>
    intro i s selfId ax ay s1 nax nay h
    simp only [forceLoop] at h
    injection h with h
    rw [Prod.mk.injEq, Prod.mk.injEq] at h
    obtain ⟨h, -, -⟩ := h
    rw [← h]
  | succ fuel ih =>
    intro i s selfId ax ay s1 nax nay h
    simp only [forceLoop] at h
    split at h
    · split at h
      · exact ih (i + 1) s selfId ax ay s1 nax nay h
      · split at h
        · rename_i s' fx fy heq
          rw [ih (i + 1) s' selfId (ax + fx) (ay + fy) s1 nax nay h]
          exact force_calc_num _ _ _ _ _ _ heq
        · exact PyRes.noConfusion h
    · injection h with h
      rw [Prod.mk.injEq, Prod.mk.injEq] at h
      obtain ⟨h, -, -⟩ := h
      rw [← h]

/-- C3: in every body update that completes normally, the velocity kick uses
exactly half the acceleration-scaled `dt` when the system's completed-step
counter is `0`, and the full `dt` otherwise: writing `s1` and
`(nax, nay)` for the state and net acceleration produced by the force
summation loop, the updated body's velocity is the post-loop velocity plus
`(dt/2 or dt) * net acceleration`. -/
theorem c3_leapfrog_bootstrap (s : SysState) (selfId : ℕ) (dt : ℝ) (s1 : SysState)
    (nax nay : ℝ) (s' : SysState) (hL : selfId < s1.store.length)
    (hfl : forceLoop s.all.length 0 s selfId 0 0 = .ok (s1, nax, nay))
    (h : update s selfId dt = .ok s') :
    (getBody s' selfId).vx =
      (getBody s1 selfId).vx + (if s.calc_num = 0 then dt / 2 else dt) * nax ∧
    (getBody s' selfId).vy =
      (getBody s1 selfId).vy + (if s.calc_num = 0 then dt / 2 else dt) * nay := by
  have hcn : s1.calc_num = s.calc_num := forceLoop_calc_num _ _ _ _ _ _ _ _ _ hfl
  simp only [update, setBody_all] at h
  rw [hfl] at h
  have hLset : selfId < (trailStep s1 (applyKick
      { getBody s1 selfId with ax := nax, ay := nay } s1.calc_num dt)).1.store.length := by
    rw [trailStep_fst_store]
    exact hL
  split at h
  · rename_i e st heq
    exact PyRes.noConfusion heq
  · rename_i s1' nax' nay' heq
    injection heq with heq
    rw [Prod.mk.injEq, Prod.mk.injEq] at heq
    obtain ⟨h1, h2, h3⟩ := heq
    subst h1
    subst h2
    subst h3
    split at h
    · split at h
      · rename_i l hrem
        injection h with h
        rw [← h, getBody_listfields2, getBody_setBody_self _ _ _ hLset]
        constructor <;>
          simp only [trailStep_snd_vx, trailStep_snd_vy, applyKick_vx, applyKick_vy, hcn]
      · exact PyRes.noConfusion h
    · injection h with h
      rw [← h, getBody_setBody_self _ _ _ hLset]
      constructor <;>
        simp only [trailStep_snd_vx, trailStep_snd_vy, applyKick_vx, applyKick_vy, hcn]

/-- Witness for C3: a single isolated body (`c3S`, step counter `0`) gets
exactly the half-`dt` kick on its zero net acceleration. -/
theorem c3_witness :
    0 < c3S.store.length ∧
    forceLoop c3S.all.length 0 c3S 0 0 0 = .ok (c3S, 0, 0) ∧
    update c3S 0 1 = .ok (resState (update c3S 0 1)) ∧
    ((getBody (resState (update c3S 0 1)) 0).vx =
      (getBody c3S 0).vx + (if c3S.calc_num = 0 then (1 : ℝ) / 2 else 1) * 0 ∧
     (getBody (resState (update c3S 0 1)) 0).vy =
      (getBody c3S 0).vy + (if c3S.calc_num = 0 then (1 : ℝ) / 2 else 1) * 0) := by
  have h1 : 0 < c3S.store.length := by
    norm_num [c3S, mkPlanet, mkSystem]
  have hfl : forceLoop c3S.all.length 0 c3S 0 0 0 = .ok (c3S, 0, 0) := by
    norm_num [c3S, mkPlanet, mkSystem, forceLoop, List.getD]
  have hne : isExn (update c3S 0 1) = false := by
    norm_num [c3S, mkPlanet, mkSystem, update, forceLoop, applyKick, trailStep,
      getBody, setBody, pyRemove, isExn, List.getD, List.getLastD, hypot_y_zero]
  have hupd : update c3S 0 1 = .ok (resState (update c3S 0 1)) := by
    cases hE : update c3S 0 1 with
    | ok s' => rfl
    | exn e st =>
      rw [hE] at hne
      exact absurd hne (by simp [isExn])
  exact ⟨h1, hfl, hupd, c3_leapfrog_bootstrap c3S 0 1 c3S 0 0 _ h1 hfl hupd⟩


/-- C6 (amended): for every force computation between two distinct bodies at
exactly coinciding positions for which the collision-merge branch does not
fire, a zero force vector is returned and no exception propagates; if the
two bodies additionally have identical velocity, then both bodies are
nudged to force future separation: the first body's x-velocity and the
second body's y-velocity are each incremented by `1`. -/
theorem c6_overlap_nudges_both (s : SysState) (a b : ℕ) (hab : a ≠ b)
    (haL : a < s.store.length) (hbL : b < s.store.length)
    (hx : (getBody s a).x = (getBody s b).x) (hy : (getBody s a).y = (getBody s b).y)
    (hguard : ¬(s.collisions = true ∧
      hypot ((getBody s a).x - (getBody s b).x) ((getBody s a).y - (getBody s b).y) ≤
        s.rf * ((getBody s a).radius + (getBody s b).radius) ∧
      (getBody s a).has_collided = false ∧ (getBody s b).has_collided = false)) :
    ∃ s', force s a b = .ok (s', 0, 0) ∧
      (((getBody s a).vx = (getBody s b).vx ∧ (getBody s a).vy = (getBody s b).vy) →
        (getBody s' a).vx = (getBody s a).vx + 1 ∧
        (getBody s' b).vy = (getBody s b).vy + 1) ∧
      (¬((getBody s a).vx = (getBody s b).vx ∧ (getBody s a).vy = (getBody s b).vy) →
        s' = s) := by
  have hr : hypot ((getBody s a).x - (getBody s b).x)
      ((getBody s a).y - (getBody s b).y) = 0 := by
    rw [hx, hy, sub_self, sub_self]
    exact hypot_zero_zero
  simp only [force]
  rw [if_neg hguard, if_pos hr]
  refine ⟨_, rfl, ?_, ?_⟩
  · rintro ⟨hvx, hvy⟩
    rw [if_pos ⟨sub_eq_zero_of_eq hvx, sub_eq_zero_of_eq hvy⟩]
    constructor
    · rw [getBody_setBody_ne _ _ _ _ (fun h0 => hab h0.symm),
        getBody_setBody_self _ _ _ haL]
    · rw [getBody_setBody_self _ _ _ (by simpa [setBody] using hbL),
        getBody_setBody_ne _ _ _ _ hab]
  · intro hn
    rw [if_neg (fun hc => hn ⟨sub_eq_zero.mp hc.1, sub_eq_zero.mp hc.2⟩)]

/-- Counterexample for C6 as stated: the two coinciding, co-moving bodies of
`c6S` (collisions disabled) both have a velocity component changed by the
overlap-avoidance rule — the x-velocity of body `0` and the y-velocity of
body `1` — so it is not the case that exactly one body's velocity component
is nudged. -/
theorem c6_counterexample :
    force c6S 0 1 = .ok (forceState (force c6S 0 1), 0, 0) ∧
    (getBody (forceState (force c6S 0 1)) 0).vx ≠ (getBody c6S 0).vx ∧
    (getBody (forceState (force c6S 0 1)) 1).vy ≠ (getBody c6S 1).vy := by
  norm_num [c6S, mkPlanet, mkSystem, force, forceState, getBody, setBody,
    List.getD, hypot_zero_zero]

/-- Witness for the amended C6 at the concrete state `c6S`: the overlap pass
returns a zero force and nudges `vx` of body `0` and `vy` of body `1`. -/
theorem c6_amended_witness :
    force c6S 0 1 = .ok (forceState (force c6S 0 1), 0, 0) ∧
    (getBody (forceState (force c6S 0 1)) 0).vx = (getBody c6S 0).vx + 1 ∧
    (getBody (forceState (force c6S 0 1)) 1).vy = (getBody c6S 1).vy + 1 := by
  have hx : (getBody c6S 0).x = (getBody c6S 1).x := by
    norm_num [c6S, mkPlanet, mkSystem, getBody, List.getD]
  have hy : (getBody c6S 0).y = (getBody c6S 1).y := by
    norm_num [c6S, mkPlanet, mkSystem, getBody, List.getD]
  have hguard : ¬(c6S.collisions = true ∧
      hypot ((getBody c6S 0).x - (getBody c6S 1).x) ((getBody c6S 0).y - (getBody c6S 1).y) ≤
        c6S.rf * ((getBody c6S 0).radius + (getBody c6S 1).radius) ∧
      (getBody c6S 0).has_collided = false ∧ (getBody c6S 1).has_collided = false) := by
    rintro ⟨hc, -, -⟩
    revert hc
    norm_num [c6S, mkPlanet, mkSystem]
  obtain ⟨s', hok, hnud, -⟩ := c6_overlap_nudges_both c6S 0 1 (by norm_num)
    (by norm_num [c6S, mkPlanet, mkSystem]) (by norm_num [c6S, mkPlanet, mkSystem])
    hx hy hguard
  have hvel : (getBody c6S 0).vx = (getBody c6S 1).vx ∧
      (getBody c6S 0).vy = (getBody c6S 1).vy := by
    constructor <;> norm_num [c6S, mkPlanet, mkSystem, getBody, List.getD]
  obtain ⟨h1, h2⟩ := hnud hvel
  have hfs : forceState (force c6S 0 1) = s' := by
    rw [hok]
    rfl
  rw [hfs]
  exact ⟨hok, h1, h2⟩


/-- C2 (code bug witness): in `c2S`, bodies `0` and `1` merge during the
update of body `0`; the merged body (store index `3`) is created at
`x = 1/2` (both entries of its fresh trail record that position) with
velocity `1`, and because `GravSystem.update` iterates by index over the
live, mutated `all` list, the iterator reaches the merged body within the
very step that created it: at the end of that step its position has already
been integrated to `3/2`. -/
theorem c2_merged_body_updated_same_step :
    isExn (sysUpdate c2S 1) = false ∧
    (resState (sysUpdate c2S 1)).store.length = 4 ∧
    (getBody (resState (sysUpdate c2S 1)) 3).positions =
      [((1 : ℝ) / 2, 0), ((1 : ℝ) / 2, 0)] ∧
    (getBody (resState (sysUpdate c2S 1)) 3).x = 3 / 2 ∧
    (getBody (resState (sysUpdate c2S 1)) 3).x ≠ ((1 : ℝ) / 2) := by
  norm_num [c2S, mkPlanet, mkSystem, sysUpdate, stepLoop, update, forceLoop, force,
    collide, applyKick, trailStep, getBody, setBody, pyRemove, resState, isExn,
    List.getD, List.getLastD, List.erase, hypot_y_zero, abs_of_nonneg, abs_of_nonpos]

/-- C4 (code bug witness): in `c4S`, body `0` merges with body `1` during
its own update (removing body `0` from `all`), then its still-running
update integrates its position past the boundary; the boundary branch calls
`list.remove` on a list that no longer contains the body, and the resulting
`ValueError` propagates uncaught out of `PlanetObject.update` and
`GravSystem.update`. -/
theorem c4_valueerror_escapes_update :
    isExn (sysUpdate c4S 1) = true := by
  norm_num [c4S, mkPlanet, mkSystem, sysUpdate, stepLoop, update, forceLoop, force,
    collide, applyKick, trailStep, getBody, setBody, pyRemove, resState, isExn,
    List.getD, List.getLastD, List.erase, hypot_y_zero, abs_of_nonneg, abs_of_nonpos]


/-- Witness for C9 at the concrete input `(1, 0)`. -/
theorem c9_witness :
    ((1 : ℝ) ≠ 0) ∧
    to_cartesian (to_polar 1 0 false).1 (to_polar 1 0 false).2 false = (1, 0) :=
  ⟨by norm_num, to_polar_roundtrip 1 0 (by norm_num)⟩

end Gravity
